import Mathlib

/-
Verification of the esriscraper repository against its natural-language
specification.  The Python sources (scrape.py, explore.py, check.py,
utils.py) are shallowly embedded below: pure fragments become Lean
functions, the file-system effects of one layer download become explicit
state passing on a record of file contents, and the external esridump
collaborator (record stream, resumable DumperState) is modelled by the
data it feeds into the embedded code.
-/

namespace Esriscraper

/-! ## scrape.py: per-layer download phase (lines 182-207) -/

/-- On-disk files of one layer touched by the download phase of
scrape_endpoint: the .status file content, the .state (pagination cursor)
file content, and the lines of the .geojsonl artifact.  none means the
file does not exist. -/
structure LayerFiles where
  status : Option String
  stateFile : Option String
  artifact : List String
deriving Repr, DecidableEq

/-- One invocation of the esridump record stream (external collaborator):
the feature lines it yields in order, and whether it raises an exception
after yielding them (true) or is exhausted normally (false). -/
structure StreamRun where
  features : List String
  raises : Bool
deriving Repr, DecidableEq

/-- Whitespace stripping from both ends of a character list, as the strip
call applied to the .state file content. -/
def stripChars (cs : List Char) : List Char :=
  ((cs.dropWhile Char.isWhitespace).reverse.dropWhile Char.isWhitespace).reverse

/-- Value of a list of decimal digit characters. -/
def natOfDigits (cs : List Char) : Nat :=
  cs.foldl (fun n c => 10 * n + (c.toNat - '0'.toNat)) 0

/-- The resumable DumperState of esridump is modelled as the count of
records consumed so far, serialized as decimal text; scrape_endpoint reads
it back with DumperState.decode on the stripped file content (the files
the code writes always hold a decimal numeral). -/
def decodeCursor (s : String) : Nat := natOfDigits (stripChars s.toList)

/-- Embedding of scrape.py lines 182-207: read the previous cursor from the
.state file when present, iterate the stream appending one line per feature
to the artifact (opened in append mode); on an exception write the current
cursor to the .state file and re-raise (the error branch carries the
resulting files); on normal exhaustion write downloaded to the .status
file.  No branch ever deletes the .state file. -/
def downloadPhase (fs : LayerFiles) (run : StreamRun) : Except LayerFiles LayerFiles :=
  let prev : Nat := (fs.stateFile.map decodeCursor).getD 0
  let artifact := fs.artifact ++ run.features
  if run.raises then
    Except.error { fs with
      artifact := artifact
      stateFile := some (toString (prev + run.features.length)) }
  else
    Except.ok { fs with
      artifact := artifact
      status := some "downloaded" }

/-! ## scrape.py: layer name reconstruction and filtering (lines 127-147) -/

/-- A layer description as returned in the service metadata layers list
consumed by scrape_endpoint: id, display name, parent layer id (-1 for a
root layer), and optional type. -/
structure SvcLayer where
  id : Nat
  name : String
  parentLayerId : Int
  type : Option String
deriving Repr, DecidableEq

/-- Lookup in the layer_map built by scrape_endpoint (dict keyed by id). -/
def lookupSvcLayer (layer_map : List SvcLayer) (i : Int) : Option SvcLayer :=
  layer_map.find? (fun l => (l.id : Int) = i)

/-- Walk of the parentLayerId links in get_full_layer_name, root name
first.  Fuel bounds the walk: none models the KeyError on a missing parent
id and nontermination on a parent cycle, neither of which occurs on
well-formed metadata. -/
def fullNameParts (layer_map : List SvcLayer) : Nat → SvcLayer → Option (List String)
  | 0, _ => none
  | fuel + 1, curr =>
    if curr.parentLayerId = -1 then
      some [curr.name]
    else
      match lookupSvcLayer layer_map curr.parentLayerId with
      | none => none
      | some p =>
        match fullNameParts layer_map fuel p with
        | none => none
        | some rest => some (rest ++ [curr.name])

/-- Embedding of get_full_layer_name (scrape.py lines 127-138): join the
parent-walk parts with a path separator after suffixing the final segment
with an underscore and the layer id. -/
def get_full_layer_name (layer_map : List SvcLayer) (layer : SvcLayer) : Option String :=
  match fullNameParts layer_map (layer_map.length + 1) layer with
  | none => none
  | some parts =>
    let parts := parts.dropLast ++ [parts.getLastD "" ++ "_" ++ toString layer.id]
    some (String.intercalate "/" parts)

/-- Embedding of the skip decision of scrape_endpoint (scrape.py lines
144-147): skip when the name is in the blacklist, or when the whitelist is
not None and the name is not in it. -/
def skipsLayer (blacklist : List String) (whitelist : Option (List String))
    (layer_name : String) : Bool :=
  blacklist.contains layer_name ||
    (whitelist.isSome && !((whitelist.getD []).contains layer_name))

/-- Skip decision as the specification words it: skip when the name is on
the blacklist, or a non-empty whitelist is configured and the name is
absent from it (so an empty whitelist would let every layer through).
Written from the spec sentence, to be compared with skipsLayer. -/
def skipsLayerSpec (blacklist : List String) (whitelist : Option (List String))
    (layer_name : String) : Bool :=
  blacklist.contains layer_name ||
    (!((whitelist.getD []).isEmpty) && !((whitelist.getD []).contains layer_name))

/-! ## scrape.py line 9 and utils.py: the default post-processing import -/

/-- The names bound at top level of utils.py (its four function
definitions). -/
def utils_module_defs : List String :=
  ["run_external", "compress_file", "transfer_file", "compress_and_push_to_gcs"]

/-- The name scrape.py line 9 imports from the utils module. -/
def scrape_utils_import : String := "mark_as_done"

/-- A from-import of a module binds successfully exactly when the imported
name is among the names the module defines; otherwise loading the
importing module raises ImportError.  scrape.py loads only if its import
from utils resolves. -/
def scrape_module_loads : Bool := utils_module_defs.contains scrape_utils_import

/-! ## scrape.py: scrape_map_servers_wrap (lines 339-377) -/

/-- Outcome of one attempt of the wrapped run: it returns a boolean, or it
raises an exception. -/
inductive AttemptOutcome where
  | ret : Bool → AttemptOutcome
  | exn : AttemptOutcome
deriving Repr, DecidableEq

/-- Embedding of the delay computation of scrape_map_servers_wrap (lines
365-367): to_delay is delay times the attempt counter, capped at max_delay
by an if-greater test.  Durations are modelled as rationals. -/
def cappedDelay (delay max_delay : ℚ) (attempt : Nat) : ℚ :=
  let to_delay := delay * attempt
  if to_delay > max_delay then max_delay else to_delay

/-- Embedding of the loop of scrape_map_servers_wrap (lines 362-377),
evaluated against a finite trace of attempt outcomes: each iteration
sleeps the capped delay, increments the counter, then runs one attempt; a
true return exits the loop, a false return or an exception continues it.
The result lists the sleeps performed in order and whether the function
returned within the trace; an exhausted trace with false means the loop is
still running. -/
def wrapRun (delay max_delay : ℚ) : Nat → List AttemptOutcome → List ℚ × Bool
  | _, [] => ([], false)
  | attempt, o :: rest =>
    let d := cappedDelay delay max_delay attempt
    match o with
    | .ret true => ([d], true)
    | .ret false =>
      let r := wrapRun delay max_delay (attempt + 1) rest
      (d :: r.1, r.2)
    | .exn =>
      let r := wrapRun delay max_delay (attempt + 1) rest
      (d :: r.1, r.2)

/-- Index of the first attempt outcome that returns true, if any. -/
def firstTrue : List AttemptOutcome → Option Nat
  | [] => none
  | .ret true :: _ => some 0
  | _ :: rest => (firstTrue rest).map (· + 1)

/-- Number of attempts the wrapper performs on a trace: one more than the
index of the first successful attempt, or the whole trace when none
succeeds (the loop then being still in flight). -/
def attemptsMade (outs : List AttemptOutcome) : Nat :=
  match firstTrue outs with
  | some i => i + 1
  | none => outs.length

/-! ## explore.py: get_all_info (lines 87-219) -/

/-- A layer as listed in the info response for a service during discovery:
id, display name, optional parent link (none models an absent key or -1),
optional subLayerIds, field names from its metadata, and the result of the
record-count query (ok, or an EsriDownloadError carrying a message). -/
structure ExpLayer where
  id : Nat
  name : String
  parentLayerId : Option Nat
  subLayerIds : Option (List Nat)
  fieldNames : List String
  countResult : Except String Int
deriving Repr

/-- One line of the all_layer_list.jsonl catalog store (explore.py line
210). -/
structure CatalogEntry where
  name : String
  id : Nat
  service : String
  fcount : Int
  fnames : List String
deriving Repr, DecidableEq

/-- Lookup in the per-service layer_map of get_all_info (dict keyed by
id). -/
def lookupExpLayer (layer_map : List ExpLayer) (i : Nat) : Option ExpLayer :=
  layer_map.find? (fun l => l.id = i)

/-- Parent walk of the discovery-side get_full_layer_name (explore.py
lines 164-174), root name first; fuel as in the scrape-side walk. -/
def expNameParts (layer_map : List ExpLayer) : Nat → ExpLayer → Option (List String)
  | 0, _ => none
  | fuel + 1, curr =>
    match curr.parentLayerId with
    | none => some [curr.name]
    | some pid =>
      match lookupExpLayer layer_map pid with
      | none => none
      | some p =>
        match expNameParts layer_map fuel p with
        | none => none
        | some rest => some (rest ++ [curr.name])

/-- Embedding of the discovery-side get_full_layer_name: parent-walk parts
joined with a path separator, with no id suffix. -/
def exp_full_layer_name (layer_map : List ExpLayer) (layer : ExpLayer) : Option String :=
  (expNameParts layer_map (layer_map.length + 1) layer).map (String.intercalate "/")

/-- The two exact EsriDownloadError messages that get_all_info treats as
an unsupported record count (explore.py lines 201-204). -/
def err_msgs : List String :=
  ["Could not retrieve row count: Invalid or missing input parameters. ",
   "Could not retrieve row count: Requested operation is not supported by this service. The requested capability is not supported."]

/-- Result of handling one listed layer inside the service loop of
get_all_info: skipped with no effect, a new catalog entry, or an exception
carrying a message. -/
inductive LayerOutcome where
  | skip : LayerOutcome
  | entry : CatalogEntry → LayerOutcome
  | err : String → LayerOutcome
deriving Repr, DecidableEq

/-- Embedding of the body of the layer loop of get_all_info (explore.py
lines 177-212) for one layer: skip group layers (non-empty subLayerIds),
skip names on the per-service blacklist (with the id suffix appended for
the comparison), skip keys already in all_layer_map; otherwise take the
record count, mapping a count error with one of the two known messages to
the sentinel -1 and re-raising any other; a KeyError from the parent walk
is an exception as well. -/
def processLayer (service : String) (layer_map : List ExpLayer)
    (svc_blacklist : List String) (known : List (String × Nat))
    (layer : ExpLayer) : LayerOutcome :=
  if ((layer.subLayerIds.getD []).length > 0 : Bool) then .skip
  else
    match exp_full_layer_name layer_map layer with
    | none => .err "KeyError"
    | some layer_name =>
      if svc_blacklist.contains (layer_name ++ "_" ++ toString layer.id) then .skip
      else
        let full_name := service ++ "/" ++ layer_name
        if known.contains (full_name, layer.id) then .skip
        else
          match layer.countResult with
          | .ok n => .entry ⟨full_name, layer.id, service, n, layer.fieldNames⟩
          | .error msg =>
            if err_msgs.contains msg then
              .entry ⟨full_name, layer.id, service, -1, layer.fieldNames⟩
            else .err msg

/-- Embedding of the layer loop of get_all_info over a list of layers:
each produced entry is appended to the jsonl file and flushed, and its key
is added to all_layer_map, before the next layer is handled; an exception
stops the loop with the entries appended so far retained.  Returns the
appended entries in order, the final key set, and the exception message if
one was raised. -/
def processLayers (service : String) (layer_map : List ExpLayer)
    (svc_blacklist : List String) :
    List (String × Nat) → List ExpLayer →
    List CatalogEntry × List (String × Nat) × Option String
  | known, [] => ([], known, none)
  | known, l :: rest =>
    match processLayer service layer_map svc_blacklist known l with
    | .skip => processLayers service layer_map svc_blacklist known rest
    | .err m => ([], known, some m)
    | .entry e =>
      let r := processLayers service layer_map svc_blacklist ((e.name, e.id) :: known) rest
      (e :: r.1, r.2.1, r.2.2)

/-- Embedding of the service loop of get_all_info (explore.py lines
144-216) over the ordered full_services_map: a service already marked true
is written straight to the services file; a service whose blacklist value
is None is skipped without a write; otherwise its layers are processed and
its name is written to the services file only after every layer succeeded;
an exception propagates immediately, keeping the entries flushed so far
and dropping all later service-file writes.  The remote argument gives the
layer listing of each service; blacklist gives the per-service deny value
(none models the Python None, some the list, default empty list).  Returns
the appended catalog entries, the service names written, and the exception
message if one was raised. -/
def serviceLoop (remote : String → List ExpLayer)
    (blacklist : String → Option (List String)) :
    List (String × Bool) → List (String × Nat) →
    List CatalogEntry × List String × Option String
  | [], _ => ([], [], none)
  | (svc, val) :: rest, known =>
    if val then
      let r := serviceLoop remote blacklist rest known
      (r.1, svc :: r.2.1, r.2.2)
    else
      match blacklist svc with
      | none => serviceLoop remote blacklist rest known
      | some svc_bl =>
        let layers := remote svc
        let r := processLayers svc layers svc_bl known layers
        match r.2.2 with
        | some m => (r.1, [], some m)
        | none =>
          let r2 := serviceLoop remote blacklist rest r.2.1
          (r.1 ++ r2.1, svc :: r2.2.1, r2.2.2)

/-- Construction of full_services_map at the start of get_all_info
(explore.py lines 88-128): the lines of an existing full_services_list.txt
are entered first, marked true; the folder walk then adds each discovered
service that is not yet a key, marked false.  Insertion order is
preserved, as for a Python dict. -/
def buildServicesMap (fileLines : List String) (discovered : List String) :
    List (String × Bool) :=
  discovered.foldl
    (fun acc s => if (acc.map Prod.fst).contains s then acc else acc ++ [(s, false)])
    (fileLines.map (fun s => (s, true)))

/-! ## check.py: already_done (lines 8-28) -/

/-- The characters of the literal tail of the status-file pattern. -/
def statusTail : List Char := ".geojsonl.status".toList

/-- Test whether a character list starts with an underscore followed by at
least one decimal digit followed by the literal .geojsonl.status tail:
the part of the status-file pattern after its greedy leading group. -/
def tailMatchHere (cs : List Char) : Bool :=
  match cs with
  | '_' :: rest =>
    let ds := (rest.span (·.isDigit)).1
    (!ds.isEmpty) && statusTail.isPrefixOf ((rest.span (·.isDigit)).2)
  | _ => false

/-- Embedding of the anchored search in already_done (check.py line 21):
the pattern has a greedy leading group, so the chosen underscore is the
rightmost one whose tail matches; the match yields the leading group and
the captured decimal id. -/
def reMatchStatus : List Char → Option (List Char × Nat)
  | [] => none
  | c :: cs =>
    match reMatchStatus cs with
    | some (g1, n) => some (c :: g1, n)
    | none =>
      if tailMatchHere (c :: cs) then
        some ([], natOfDigits ((cs.span (·.isDigit)).1))
      else none

/-- Embedding of already_done (check.py lines 8-28) over the globbed
status files, given as pairs of the file name relative to the data folder
and the file content: statuses not_layer, raster_layer and wip are
skipped; any status other than done raises; a done file name that does not
match the pattern raises; otherwise the lowercased captured name and the
id are collected in file order. -/
def already_done : List (String × String) → Except String (List (String × Nat))
  | [] => .ok []
  | (fname, status) :: rest =>
    if ["not_layer", "raster_layer", "wip"].contains status then
      already_done rest
    else if status ≠ "done" then .error "unexpected"
    else
      match reMatchStatus fname.toList with
      | none => .error "unexpected fname"
      | some (g1, layer_id) =>
        (already_done rest).map (fun ds => ((String.mk g1).toLower, layer_id) :: ds)

/-! ## check.py: the duplicate matcher (lines 31-96) -/

/-- Embedding of expand_layers (check.py lines 31-38): for each done layer
key, the list of path-separator-aligned suffixes of its name, longest
first. -/
def expand_layers (layers : List (String × Nat)) :
    List ((String × Nat) × List String) :=
  layers.map (fun layer =>
    let parts := layer.1.splitOn "/"
    (layer, (List.range parts.length).map
      (fun i => String.intercalate "/" (parts.drop i))))

/-- Candidate list accumulated for one missing lowercase name by the
triple loop of get_possible_matches (check.py lines 60-78): for each done
layer in order, each of its suffixes in order, and each missing entry in
order, the pair of layer and suffix is appended when the missing entry has
that lowercase name, the name ends with the suffix, and the record count
of the done layer equals the record count looked up for the missing key; a
count mismatch is only logged.  The dict lookups into full_list_map are
modelled by the total function fc, as run_checks builds that map to cover
every key used. -/
def possible_matches_for (done_layers : List (String × Nat))
    (expanded : (String × Nat) → List String)
    (fc : (String × Nat) → Int)
    (full_missing : List CatalogEntry) (lname : String) :
    List ((String × Nat) × String) :=
  done_layers.flatMap (fun layer =>
    (expanded layer).flatMap (fun suffix =>
      full_missing.filterMap (fun e =>
        if e.name.toLower = lname ∧ lname.endsWith suffix ∧
            fc layer = fc (e.name.toLower, e.id)
        then some (layer, suffix) else none)))

/-- Stable insertion keeping the list ordered by suffix length descending:
the new element goes after every element with a strictly longer suffix and
before any element with an equal or shorter one, as in the stable Python
list sort keyed on suffix length with reverse true. -/
def insertDesc (c : (String × Nat) × String) :
    List ((String × Nat) × String) → List ((String × Nat) × String)
  | [] => [c]
  | d :: ds =>
    if d.2.length > c.2.length then d :: insertDesc c ds else c :: d :: ds

/-- Stable sort by suffix length descending (check.py line 82). -/
def sortDesc : List ((String × Nat) × String) → List ((String × Nat) × String)
  | [] => []
  | c :: cs => insertDesc c (sortDesc cs)

/-- Embedding of the best-match selection of get_possible_matches
(check.py lines 80-85) for one missing lowercase name: sort its candidates
stably by suffix length descending and take the done layer of the first;
none when the name accumulated no candidate and so is not a key of the
dict. -/
def best_match (done_layers : List (String × Nat))
    (expanded : (String × Nat) → List String)
    (fc : (String × Nat) → Int)
    (full_missing : List CatalogEntry) (lname : String) :
    Option (String × Nat) :=
  match sortDesc (possible_matches_for done_layers expanded fc full_missing lname) with
  | [] => none
  | c :: _ => some c.1

/-- First element of a candidate list attaining the maximal suffix length
(specification-side description of the selection rule, to be compared with
best_match). -/
def firstMaxCand : List ((String × Nat) × String) →
    Option ((String × Nat) × String)
  | [] => none
  | c :: cs =>
    match firstMaxCand cs with
    | none => some c
    | some d => if d.2.length > c.2.length then some d else some c

/-! ## check.py: get_missing_layer_list, prune_missing, run_checks -/

/-- Embedding of get_missing_layer_list (check.py lines 41-55): keep every
catalog entry whose lowercased key is not in the done set, skipping
entries of a service whose ignore value is None and entries whose name is
on the service-qualified ignore list. -/
def get_missing_layer_list (full_list : List CatalogEntry)
    (done_layers : List (String × Nat))
    (match_ignore : String → Option (List String)) : List CatalogEntry :=
  full_list.filter (fun e =>
    !done_layers.contains (e.name.toLower, e.id) &&
      (match match_ignore e.service with
       | none => false
       | some l => !(l.map (fun x => e.service ++ "/" ++ x)).contains e.name))

/-- Embedding of prune_missing (check.py lines 88-96): drop entries whose
lowercase name was matched and entries whose literal name is a key of the
known-matches map. -/
def prune_missing (full_missing : List CatalogEntry)
    (matched_set : List String) (known_matches : List String) :
    List CatalogEntry :=
  full_missing.filter (fun e =>
    !matched_set.contains e.name.toLower && !known_matches.contains e.name)

/-- Record-count lookup of run_checks: the all_layer_map dict built by
read_all_layer_info (check.py lines 99-110) keys each entry by lowercased
name and id, a later line winning; keys outside the catalog are modelled
with count 0 since run_checks only ever looks up keys it put in the map. -/
def catalogCount (full_list : List CatalogEntry) (k : String × Nat) : Int :=
  ((full_list.reverse.find? (fun e => (e.name.toLower, e.id) = k)).map
    (fun e => e.fcount)).getD 0

/-- Suffix lookup for a done layer in the expand_layers output. -/
def expandedLookup (done_layers : List (String × Nat)) (l : String × Nat) :
    List String :=
  (((expand_layers done_layers).find? (fun p => p.1 = l)).map (fun p => p.2)).getD []

/-- Embedding of the pipeline of run_checks (check.py lines 113-211) up to
its written outputs: read the catalog, compute the done set with
already_done (an exception there aborts the whole run), expand the done
names, build the missing list, collect the lowercase missing names that
accumulated at least one candidate, and prune.  Returns the matched names
with their best matches, and the residual missing list. -/
def run_checks (files : List (String × String)) (full_list : List CatalogEntry)
    (match_ignore : String → Option (List String))
    (known_matches : List String) :
    Except String ((List (String × Option (String × Nat))) × List CatalogEntry) := do
  let done_layers ← already_done files
  let fc := catalogCount full_list
  let expanded := expandedLookup done_layers
  let full_missing := get_missing_layer_list full_list done_layers match_ignore
  let matched_set := (full_missing.map (fun e => e.name.toLower)).filter
    (fun ln => !(possible_matches_for done_layers expanded fc full_missing ln).isEmpty)
  let matchList := matched_set.map
    (fun ln => (ln, best_match done_layers expanded fc full_missing ln))
  let missing := prune_missing full_missing matched_set known_matches
  pure (matchList, missing)

/-! ## Theorems -/

/-- C1: the claim says the .state cursor file is removed once a layer
reaches downloaded.  Counterexample: a layer resumed from a persisted
cursor whose stream is exhausted without error ends with status downloaded
while its .state file still holds the old cursor; no branch of
scrape_endpoint deletes it. -/
theorem C1_counterexample :
    downloadPhase ⟨some "wip", some "5", []⟩ ⟨["f1"], false⟩ =
      Except.ok ⟨some "downloaded", some "5", ["f1"]⟩ ∧
    (⟨some "downloaded", some "5", ["f1"]⟩ : LayerFiles).stateFile ≠ none := by
  exact ⟨rfl, by simp⟩

/-- C1 (amended): when the record stream is exhausted without error,
scrape_endpoint writes downloaded to the status file and appends the
yielded features to the artifact, but the .state file is left exactly as
it was: the cursor file is written only on failure and is never deleted,
so one left by an earlier interrupted run persists past downloaded. -/
theorem C1_downloaded_keeps_state_file (fs : LayerFiles) (run : StreamRun)
    (h : run.raises = false) :
    downloadPhase fs run =
      Except.ok { fs with artifact := fs.artifact ++ run.features,
                          status := some "downloaded" } := by
  simp [downloadPhase, h]

/-- C1 witness: the amended statement at a concrete resumed layer. -/
theorem C1_downloaded_keeps_state_file_witness :
    downloadPhase ⟨some "wip", some "7", ["x"]⟩ ⟨["y"], false⟩ =
      Except.ok ⟨some "downloaded", some "7", ["x", "y"]⟩ :=
  C1_downloaded_keeps_state_file ⟨some "wip", some "7", ["x"]⟩ ⟨["y"], false⟩ rfl

/-- C2: the claim says that with an empty configured whitelist every layer
is processed.  Counterexample: scrape_endpoint tests the whitelist against
None, so an empty whitelist list skips a layer that the claim says is
processed. -/
theorem C2_counterexample :
    skipsLayer [] (some []) "Roads_0" = true ∧
    skipsLayerSpec [] (some []) "Roads_0" = false := by
  decide

/-- C2 (amended): a layer whose reconstructed fully qualified name (final
segment suffixed with an underscore and the layer id) is nm is skipped
exactly when nm is on the blacklist, or a whitelist is configured (is not
None) and nm is absent from it; with no whitelist configured every layer
is processed, while an empty configured whitelist skips every layer. -/
theorem C2_skip_iff (layer_map : List SvcLayer) (layer : SvcLayer)
    (blacklist : List String) (whitelist : Option (List String)) (nm : String)
    (_h : get_full_layer_name layer_map layer = some nm) :
    skipsLayer blacklist whitelist nm = true ↔
      nm ∈ blacklist ∨ ∃ wl, whitelist = some wl ∧ nm ∉ wl := by
  cases whitelist <;> simp [skipsLayer]

/-- C2 witness: the amended statement at a concrete two-level layer tree
with an empty whitelist. -/
theorem C2_skip_iff_witness :
    skipsLayer [] (some []) "Group/Roads_3" = true ↔
      "Group/Roads_3" ∈ ([] : List String) ∨
        ∃ wl, (some [] : Option (List String)) = some wl ∧ "Group/Roads_3" ∉ wl :=
  C2_skip_iff [⟨0, "Group", -1, none⟩, ⟨3, "Roads", 0, none⟩]
    ⟨3, "Roads", 0, none⟩ [] (some []) "Group/Roads_3" (by decide)

/-- C3: the name mark_as_done that scrape.py imports from the utils module
as its default post-processing function is not among the names utils.py
defines, so the from-import does not resolve and loading the scrape module
raises ImportError. -/
theorem C3_mark_as_done_missing :
    scrape_module_loads = false ∧
      utils_module_defs.contains scrape_utils_import = false := by
  decide

/-- C4: when the record stream raises mid-iteration, scrape_endpoint
persists the current cursor to the .state file and re-raises; the status
file is untouched by the failure and the artifact keeps every line already
written (it is opened in append mode), extended by the features yielded
before the failure. -/
theorem C4_failure_persists_cursor (fs : LayerFiles) (run : StreamRun)
    (h : run.raises = true) :
    downloadPhase fs run =
      Except.error { fs with
        artifact := fs.artifact ++ run.features,
        stateFile :=
          some (toString ((fs.stateFile.map decodeCursor).getD 0 + run.features.length)) } := by
  simp [downloadPhase, h]

/-- C4 witness: the statement at a concrete layer resumed from cursor 5
whose stream yields two features then raises. -/
theorem C4_failure_persists_cursor_witness :
    downloadPhase ⟨some "wip", some "5", ["a"]⟩ ⟨["f1", "f2"], true⟩ =
      Except.error ⟨some "wip", some "7", ["a", "f1", "f2"]⟩ :=
  (C4_failure_persists_cursor ⟨some "wip", some "5", ["a"]⟩
    ⟨["f1", "f2"], true⟩ rfl).trans (congrArg Except.error (by decide))

/-- Helper: the if-greater cap of scrape_map_servers_wrap is the minimum. -/
theorem cappedDelay_eq_min (delay max_delay : ℚ) (attempt : Nat) :
    cappedDelay delay max_delay attempt = min (delay * attempt) max_delay := by
  unfold cappedDelay
  rcases le_or_lt (delay * attempt) max_delay with hle | hlt
  · simp [not_lt.mpr hle, min_eq_left hle]
  · simp [hlt, min_eq_right hlt.le]

/-- Helper: on a trace with no successful attempt yet at its head, the
attempt count is one more than on the tail. -/
theorem attemptsMade_cons (o : AttemptOutcome) (rest : List AttemptOutcome)
    (h : o ≠ .ret true) :
    attemptsMade (o :: rest) = attemptsMade rest + 1 := by
  have hft : firstTrue (o :: rest) = (firstTrue rest).map (· + 1) := by
    match o, h with
    | .ret false, _ => rfl
    | .exn, _ => rfl
  unfold attemptsMade
  rw [hft]
  cases firstTrue rest <;> simp

/-- Helper: closed form of the retry loop of scrape_map_servers_wrap from
an arbitrary attempt counter. -/
theorem wrapRun_closed_form (delay max_delay : ℚ) (outs : List AttemptOutcome) :
    ∀ a : Nat, wrapRun delay max_delay a outs =
      ((List.range (attemptsMade outs)).map
        (fun k => min (delay * ((a + k : Nat) : ℚ)) max_delay),
       (firstTrue outs).isSome) := by
  induction outs with
  | nil => intro a; simp [wrapRun, attemptsMade, firstTrue]
  | cons o rest ih =>
    intro a
    have hshift : ∀ n : Nat,
        (List.range (n + 1)).map
            (fun k => min (delay * ((a + k : Nat) : ℚ)) max_delay) =
          min (delay * (a : ℚ)) max_delay ::
            (List.range n).map
              (fun k => min (delay * ((a + 1 + k : Nat) : ℚ)) max_delay) := by
      intro n
      rw [List.range_succ_eq_map, List.map_cons, List.map_map]
      refine congrArg₂ _ (by norm_num) (List.map_congr_left ?_)
      intro k _
      have : a + (k + 1) = a + 1 + k := by omega
      simp [Function.comp, Nat.succ_eq_add_one, this]
    match o with
    | .ret true =>
      have h1 : attemptsMade (AttemptOutcome.ret true :: rest) = 1 := rfl
      have h2 : firstTrue (AttemptOutcome.ret true :: rest) = some 0 := rfl
      simp only [wrapRun, cappedDelay_eq_min, h1, h2]
      rw [show List.range 1 = [0] from rfl]
      norm_num
    | .ret false =>
      rw [attemptsMade_cons _ _ (by simp)]
      simp only [wrapRun, ih (a + 1), cappedDelay_eq_min, hshift]
      have hft : firstTrue (AttemptOutcome.ret false :: rest) =
          (firstTrue rest).map (· + 1) := rfl
      simp [hft]
    | .exn =>
      rw [attemptsMade_cons _ _ (by simp)]
      simp only [wrapRun, ih (a + 1), cappedDelay_eq_min, hshift]
      have hft : firstTrue (AttemptOutcome.exn :: rest) =
          (firstTrue rest).map (· + 1) := rfl
      simp [hft]

/-- C6: scrape_map_servers_wrap sleeps min of delay times the attempt
number and max_delay before every attempt, the attempt number starting at
0 (first attempt immediate) and incremented exactly once per attempt
whether it succeeds, returns false, or raises; exceptions are swallowed
and the loop continues with no attempt limit, returning exactly when an
attempt returns true: on any finite outcome trace the sleeps performed are
min of delay times k and max_delay for k from 0 up to the first successful
attempt (or the whole trace when none succeeds), and the wrapper has
returned exactly when some attempt returned true. -/
theorem C6_wrap_retry_policy (delay max_delay : ℚ) (outs : List AttemptOutcome) :
    wrapRun delay max_delay 0 outs =
      ((List.range (attemptsMade outs)).map
        (fun (k : Nat) => min (delay * (k : ℚ)) max_delay),
       (firstTrue outs).isSome) := by
  rw [wrapRun_closed_form delay max_delay outs 0]
  refine congrArg₂ _ (List.map_congr_left ?_) rfl
  intro k _
  norm_num

/-- Helper: splitting the layer loop of get_all_info at a point it reaches
without an exception. -/
theorem processLayers_append (svc : String) (lm : List ExpLayer) (bl : List String)
    (l1 l2 : List ExpLayer) :
    ∀ known, (processLayers svc lm bl known l1).2.2 = none →
      processLayers svc lm bl known (l1 ++ l2) =
        ((processLayers svc lm bl known l1).1 ++
           (processLayers svc lm bl (processLayers svc lm bl known l1).2.1 l2).1,
         (processLayers svc lm bl (processLayers svc lm bl known l1).2.1 l2).2.1,
         (processLayers svc lm bl (processLayers svc lm bl known l1).2.1 l2).2.2) := by
  induction l1 with
  | nil => intro known _; simp [processLayers]
  | cons l rest ih =>
    intro known h
    cases hpl : processLayer svc lm bl known l with
    | skip =>
      have h2 : (processLayers svc lm bl known rest).2.2 = none := by
        simpa [processLayers, hpl] using h
      simp [processLayers, hpl]
      exact ih known h2
    | err m => simp [processLayers, hpl] at h
    | entry e =>
      have h2 : (processLayers svc lm bl ((e.name, e.id) :: known) rest).2.2 = none := by
        simpa [processLayers, hpl] using h
      simp [processLayers, hpl, ih _ h2]

/-- C5: inside get_all_info, each new catalog entry is appended and
flushed before the next leaf layer is handled, and a service name reaches
the full services file only after its whole layer loop succeeded: when the
layer listing of a service splits into a prefix that processes without
error followed by a layer that raises, the run ends with exactly the
entries of the prefix appended (at most the in-flight entry is lost), the
service absent from the services file, and the exception propagated. -/
theorem C5_partial_failure (remote : String → List ExpLayer)
    (blacklist : String → Option (List String)) (svc : String) (bl : List String)
    (known : List (String × Nat)) (good : List ExpLayer) (bad : ExpLayer)
    (post : List ExpLayer) (m : String)
    (hremote : remote svc = good ++ bad :: post)
    (hbl : blacklist svc = some bl)
    (hgood : (processLayers svc (remote svc) bl known good).2.2 = none)
    (hbad : processLayer svc (remote svc) bl
        (processLayers svc (remote svc) bl known good).2.1 bad = .err m) :
    serviceLoop remote blacklist [(svc, false)] known =
      ((processLayers svc (remote svc) bl known good).1, [], some m) := by
  rw [hremote] at hgood hbad ⊢
  have hb : processLayers svc (good ++ bad :: post) bl
      (processLayers svc (good ++ bad :: post) bl known good).2.1 (bad :: post) =
      ([], (processLayers svc (good ++ bad :: post) bl known good).2.1, some m) := by
    simp [processLayers, hbad]
  have happ :=
    processLayers_append svc (good ++ bad :: post) bl good (bad :: post) known hgood
  rw [hb] at happ
  unfold serviceLoop
  simp only [Bool.false_eq_true, if_false, hbl, hremote]
  rw [happ]
  simp [serviceLoop]

/-- C5 witness: a two-layer service whose second layer raises keeps the
flushed first entry and never writes the service name. -/
theorem C5_partial_failure_witness :
    serviceLoop
        (fun _ => [⟨0, "Roads", none, none, ["f"], Except.ok 10⟩,
                   ⟨1, "Bad", none, none, [], Except.error "boom"⟩])
        (fun _ => some []) [("s", false)] [] =
      ([⟨"s/Roads", 0, "s", 10, ["f"]⟩], [], some "boom") :=
  (C5_partial_failure _ _ "s" [] []
      [⟨0, "Roads", none, none, ["f"], Except.ok 10⟩]
      ⟨1, "Bad", none, none, [], Except.error "boom"⟩ [] "boom"
      rfl rfl (by decide) (by decide)).trans (by decide)

/-- C7: in get_all_info, a leaf layer whose record-count query raises an
EsriDownloadError with one of the two exact unsupported-count messages
still gets its catalog entry appended, with the sentinel count -1; a
count error with any other message propagates and no entry for the layer
is appended. -/
theorem C7_count_error_sentinel (svc : String) (lm : List ExpLayer)
    (bl : List String) (known : List (String × Nat)) (layer : ExpLayer)
    (nm msg : String)
    (hsub : layer.subLayerIds.getD [] = [])
    (hname : exp_full_layer_name lm layer = some nm)
    (hbl : nm ++ "_" ++ toString layer.id ∉ bl)
    (hknown : (svc ++ "/" ++ nm, layer.id) ∉ known)
    (hcount : layer.countResult = .error msg) :
    (msg ∈ err_msgs →
      processLayers svc lm bl known [layer] =
        ([⟨svc ++ "/" ++ nm, layer.id, svc, -1, layer.fieldNames⟩],
         (svc ++ "/" ++ nm, layer.id) :: known, none)) ∧
    (msg ∉ err_msgs →
      processLayers svc lm bl known [layer] = ([], known, some msg)) := by
  constructor <;> intro h <;>
    simp [processLayers, processLayer, hsub, hname, hbl, hknown, hcount, h]

/-- C7 witness: a layer whose count query fails with an unexpected message
propagates the error and appends nothing. -/
theorem C7_count_error_sentinel_witness :
    processLayers "s" [⟨0, "Roads", none, none, [], Except.error "boom"⟩] [] []
        [⟨0, "Roads", none, none, [], Except.error "boom"⟩] =
      ([], [], some "boom") := by
  have h := C7_count_error_sentinel "s"
    [⟨0, "Roads", none, none, [], Except.error "boom"⟩] [] []
    ⟨0, "Roads", none, none, [], Except.error "boom"⟩ "Roads" "boom"
    rfl (by decide) (by decide) (by decide) rfl
  exact h.2 (by decide)

/-- Helper: a services map whose every value is true only rewrites the
services file with its keys and appends nothing. -/
theorem serviceLoop_all_true (remote : String → List ExpLayer)
    (blacklist : String → Option (List String)) :
    ∀ (m : List (String × Bool)) (known : List (String × Nat)),
      (∀ p ∈ m, p.2 = true) →
      serviceLoop remote blacklist m known = ([], m.map Prod.fst, none) := by
  intro m
  induction m with
  | nil => intro known _; simp [serviceLoop]
  | cons p rest ih =>
    intro known h
    obtain ⟨svc, val⟩ := p
    have hv : val = true := h (svc, val) (by simp)
    subst hv
    simp [serviceLoop, ih known (fun q hq => h q (List.mem_cons_of_mem _ hq))]

/-- Helper: a run of the service loop that ends without an exception has
written exactly its keys to the services file, provided no key carries a
None blacklist value. -/
theorem serviceLoop_ok_lines (remote : String → List ExpLayer)
    (blacklist : String → Option (List String)) :
    ∀ (m : List (String × Bool)) (known : List (String × Nat)),
      (∀ p ∈ m, blacklist p.1 ≠ none) →
      (serviceLoop remote blacklist m known).2.2 = none →
      (serviceLoop remote blacklist m known).2.1 = m.map Prod.fst := by
  intro m
  induction m with
  | nil => intro known _ _; simp [serviceLoop]
  | cons p rest ih =>
    intro known hbl h
    obtain ⟨svc, val⟩ := p
    have hrest : ∀ p ∈ rest, blacklist p.1 ≠ none :=
      fun q hq => hbl q (List.mem_cons_of_mem _ hq)
    cases val with
    | true =>
      simp only [serviceLoop] at h ⊢
      simp only [if_true] at h ⊢
      simpa using ih known hrest (by simpa using h)
    | false =>
      obtain ⟨l, hl⟩ : ∃ l, blacklist svc = some l := by
        cases hbl_svc : blacklist svc with
        | none => exact absurd hbl_svc (hbl (svc, false) (by simp))
        | some l => exact ⟨l, rfl⟩
      simp only [serviceLoop, Bool.false_eq_true, if_false, hl] at h ⊢
      set r := processLayers svc (remote svc) l known (remote svc) with hr
      cases herr : r.2.2 with
      | some m2 => simp [herr] at h
      | none =>
        simp only [List.map_cons]
        have h2 : (serviceLoop remote blacklist rest r.2.1).2.2 = none := by
          simpa [herr] using h
        have := ih r.2.1 hrest h2
        simpa using this

/-- Helper: any pair in the built services map comes from the persisted
file (marked true) or has its key among the discovered services. -/
theorem buildServicesMap_from :
    ∀ (discovered : List String) (acc : List (String × Bool)) (p : String × Bool),
      p ∈ discovered.foldl
        (fun acc s => if (acc.map Prod.fst).contains s then acc else acc ++ [(s, false)])
        acc →
      p ∈ acc ∨ p.1 ∈ discovered := by
  intro discovered
  induction discovered with
  | nil => intro acc p hp; exact Or.inl hp
  | cons d rest ih =>
    intro acc p hp
    rw [List.foldl_cons] at hp
    rcases ih _ p hp with hacc | hrest
    · by_cases hc : (acc.map Prod.fst).contains d
      · rw [if_pos hc] at hacc
        exact Or.inl hacc
      · rw [if_neg hc] at hacc
        rcases List.mem_append.mp hacc with h1 | h2
        · exact Or.inl h1
        · simp at h2
          right
          simp [h2]
    · right
      exact List.mem_cons_of_mem _ hrest

/-- Helper: every discovered service name is a key of the built services
map (it is inserted when not already present). -/
theorem buildServicesMap_covers :
    ∀ (discovered : List String) (acc : List (String × Bool)) (s : String),
      s ∈ discovered ∨ s ∈ acc.map Prod.fst →
      s ∈ (discovered.foldl
        (fun acc s => if (acc.map Prod.fst).contains s then acc else acc ++ [(s, false)])
        acc).map Prod.fst := by
  intro discovered
  induction discovered with
  | nil =>
    intro acc s hs
    rcases hs with h | h
    · simp at h
    · simpa using h
  | cons d rest ih =>
    intro acc s hs
    rw [List.foldl_cons]
    apply ih
    by_cases hc : (acc.map Prod.fst).contains d
    · rw [if_pos hc]
      rcases hs with h | h
      · rcases List.mem_cons.mp h with h1 | h2
        · subst h1
          exact Or.inr (List.mem_of_elem_eq_true hc)
        · exact Or.inl h2
      · exact Or.inr h
    · rw [if_neg hc]
      rcases hs with h | h
      · rcases List.mem_cons.mp h with h1 | h2
        · subst h1
          right
          simp
        · exact Or.inl h2
      · right
        rw [List.map_append]
        exact List.mem_append_left _ h

/-- Helper: when every discovered service is already a key of the
accumulator, the fold inserts nothing. -/
theorem buildServicesMap_stable :
    ∀ (discovered : List String) (acc : List (String × Bool)),
      (∀ s ∈ discovered, s ∈ acc.map Prod.fst) →
      discovered.foldl
        (fun acc s => if (acc.map Prod.fst).contains s then acc else acc ++ [(s, false)])
        acc = acc := by
  intro discovered
  induction discovered with
  | nil => intro acc _; rfl
  | cons d rest ih =>
    intro acc h
    rw [List.foldl_cons,
      if_pos (List.elem_eq_true_of_mem (h d (List.mem_cons_self d rest)))]
    exact ih acc (fun s hs => h s (List.mem_cons_of_mem _ hs))

/-- C9: a second run of get_all_info against the unchanged remote catalog,
with the services file and the catalog file persisted by a first run that
completed without error, appends no new catalog entry and records the same
fully enumerated services.  The hypothesis on the blacklist reflects that
the folder walk never admits a service whose blacklist value is None. -/
theorem C9_second_run_no_new_entries (remote : String → List ExpLayer)
    (blacklist : String → Option (List String)) (discovered : List String)
    (hbl : ∀ s ∈ discovered, blacklist s ≠ none)
    (es1 : List CatalogEntry) (lines1 : List String)
    (h1 : serviceLoop remote blacklist (buildServicesMap [] discovered) [] =
      (es1, lines1, none)) :
    serviceLoop remote blacklist (buildServicesMap lines1 discovered)
        (es1.map (fun e => (e.name, e.id))) = ([], lines1, none) := by
  have hbl1 : ∀ p ∈ buildServicesMap [] discovered, blacklist p.1 ≠ none := by
    intro p hp
    rcases buildServicesMap_from discovered [] p (by simpa [buildServicesMap] using hp)
      with h | h
    · simp at h
    · exact hbl p.1 h
  have hlines : lines1 = (buildServicesMap [] discovered).map Prod.fst := by
    have := serviceLoop_ok_lines remote blacklist (buildServicesMap [] discovered) []
      hbl1 (by rw [h1])
    rw [h1] at this
    exact this
  have hcov : ∀ s ∈ discovered, s ∈ lines1 := by
    intro s hs
    rw [hlines]
    exact buildServicesMap_covers discovered [] s (Or.inl hs)
  have hmap2 : buildServicesMap lines1 discovered =
      lines1.map (fun s => (s, true)) := by
    unfold buildServicesMap
    apply buildServicesMap_stable
    intro s hs
    simpa using hcov s hs
  rw [hmap2]
  have hall := serviceLoop_all_true remote blacklist (lines1.map (fun s => (s, true)))
    (es1.map (fun e => (e.name, e.id)))
    (by
      intro p hp
      rcases List.mem_map.mp hp with ⟨s, _, rfl⟩
      rfl)
  rw [List.map_map] at hall
  have hid : lines1.map (Prod.fst ∘ fun s => (s, true)) = lines1 := by
    simp [Function.comp_def]
  rw [hid] at hall
  exact hall

/-- C9 witness: the second run over a one-service catalog whose first run
succeeded. -/
theorem C9_second_run_no_new_entries_witness :
    serviceLoop (fun _ => [⟨0, "Roads", none, none, ["f"], Except.ok 10⟩])
        (fun _ => some []) (buildServicesMap ["s"] ["s"]) [("s/Roads", 0)] =
      ([], ["s"], none) := by
  have h := C9_second_run_no_new_entries
    (fun _ => [⟨0, "Roads", none, none, ["f"], Except.ok 10⟩])
    (fun _ => some []) ["s"] (by intro s _; simp)
    [⟨"s/Roads", 0, "s", 10, ["f"]⟩] ["s"] (by decide)
  simpa using h

/-- Helper: the stable insertion never produces the empty list. -/
theorem insertDesc_ne_nil (c : (String × Nat) × String)
    (l : List ((String × Nat) × String)) : insertDesc c l ≠ [] := by
  cases l with
  | nil => simp [insertDesc]
  | cons d ds =>
    unfold insertDesc
    split <;> simp

/-- Helper: the head of the stable descending sort is the first element of
the input attaining the maximal suffix length, since the sort is stable
and keyed only on suffix length descending. -/
theorem sortDesc_head_first_max (l : List ((String × Nat) × String)) :
    (sortDesc l).head? = firstMaxCand l := by
  induction l with
  | nil => rfl
  | cons c cs ih =>
    unfold sortDesc firstMaxCand
    rw [← ih]
    cases hs : sortDesc cs with
    | nil => simp [insertDesc]
    | cons d ds =>
      unfold insertDesc
      split
      · next h2 => simp [h2]
      · next h2 => simp [h2]

/-- C8: in get_possible_matches a pair of done layer and suffix is a
candidate for a missing lowercase name exactly when some missing entry has
that lowercase name ending with the suffix and its looked-up record count
equals the done-layer count (count mismatch is skipped, never an error and
never a match); and for each name with candidates the selected best match
is the done layer of the first candidate in traversal order attaining the
maximal suffix length, the stable descending sort breaking ties in favour
of the first encountered. -/
theorem C8_suffix_match_selection (done_layers : List (String × Nat))
    (expanded : (String × Nat) → List String) (fc : (String × Nat) → Int)
    (full_missing : List CatalogEntry) (lname : String) :
    (∀ layer suffix,
      (layer, suffix) ∈ possible_matches_for done_layers expanded fc full_missing lname ↔
        layer ∈ done_layers ∧ suffix ∈ expanded layer ∧
          ∃ e ∈ full_missing, e.name.toLower = lname ∧ lname.endsWith suffix ∧
            fc layer = fc (e.name.toLower, e.id)) ∧
    best_match done_layers expanded fc full_missing lname =
      (firstMaxCand (possible_matches_for done_layers expanded fc full_missing lname)).map
        (fun c => c.1) := by
  constructor
  · intro layer suffix
    simp only [possible_matches_for, List.mem_flatMap, List.mem_filterMap,
      Option.ite_none_right_eq_some, Option.some.injEq, Prod.mk.injEq]
    constructor
    · rintro ⟨a, ha, b, hb, e, he, ⟨h1, h2, h3⟩, h4, h5⟩
      subst h4
      subst h5
      exact ⟨ha, hb, e, he, h1, h2, h3⟩
    · rintro ⟨ha, hb, e, he, h1, h2, h3⟩
      exact ⟨layer, ha, suffix, hb, e, he, ⟨h1, h2, h3⟩, rfl, rfl⟩
  · have h := sortDesc_head_first_max
      (possible_matches_for done_layers expanded fc full_missing lname)
    unfold best_match
    cases hs : sortDesc (possible_matches_for done_layers expanded fc full_missing lname) with
    | nil =>
      rw [hs] at h
      simp only [List.head?] at h
      rw [← h]
      rfl
    | cons c rest =>
      rw [hs] at h
      simp only [List.head?] at h
      rw [← h]
      rfl

/-- Helper: already_done raises whenever some globbed status file holds a
value outside the skipped set and different from done. -/
theorem already_done_error_of_bad (files : List (String × String)) :
    ∀ fname status, (fname, status) ∈ files →
      status ∉ (["not_layer", "raster_layer", "wip", "done"] : List String) →
      ∃ m, already_done files = .error m := by
  induction files with
  | nil => intro _ _ h _; simp at h
  | cons p rest ih =>
    intro fname status hmem hbad
    obtain ⟨f, s⟩ := p
    by_cases hskip : s ∈ (["not_layer", "raster_layer", "wip"] : List String)
    · rcases List.mem_cons.mp hmem with heq | hrest
      · exfalso
        apply hbad
        injection heq with h1 h2
        subst h2
        simp only [List.mem_cons, List.not_mem_nil, or_false] at hskip ⊢
        tauto
      · obtain ⟨m, hm⟩ := ih fname status hrest hbad
        refine ⟨m, ?_⟩
        simp only [List.mem_cons, List.not_mem_nil, or_false] at hskip
        rcases hskip with h | h | h <;> subst h <;> simpa [already_done] using hm
    · by_cases hdone : s = "done"
      · subst hdone
        rcases List.mem_cons.mp hmem with heq | hrest
        · exfalso
          apply hbad
          injection heq with h1 h2
          simp [h2]
        · obtain ⟨m, hm⟩ := ih fname status hrest hbad
          cases hre : reMatchStatus f.data with
          | none =>
            refine ⟨"unexpected fname", ?_⟩
            simp [already_done, String.toList, hre]
          | some g =>
            refine ⟨m, ?_⟩
            obtain ⟨g1, n⟩ := g
            simp [already_done, String.toList, hre, hm, Except.map]
      · refine ⟨"unexpected", ?_⟩
        simp only [List.mem_cons, List.not_mem_nil, or_false] at hskip
        push_neg at hskip
        simp [already_done, hskip.1, hskip.2.1, hskip.2.2, hdone]

/-- C10: already_done skips the statuses not_layer, raster_layer and wip,
accepts done, and raises for every other persisted status; since
run_checks computes its done set through already_done before anything
else, a duplicate-check run fails whenever any layer status file holds
ignore, downloaded or compressed, values the downloader lifecycle
legitimately produces. -/
theorem C10_lifecycle_status_fails_checks (full_list : List CatalogEntry)
    (match_ignore : String → Option (List String)) (known_matches : List String)
    (files : List (String × String)) (fname status : String)
    (hmem : (fname, status) ∈ files)
    (hbad : status ∈ (["ignore", "downloaded", "compressed"] : List String)) :
    (∃ m, already_done files = Except.error m) ∧
    (∃ m, run_checks files full_list match_ignore known_matches = Except.error m) := by
  have hbad2 : status ∉ (["not_layer", "raster_layer", "wip", "done"] : List String) := by
    simp only [List.mem_cons, List.not_mem_nil, or_false] at hbad
    rcases hbad with h | h | h <;> subst h <;> decide
  obtain ⟨m, hm⟩ := already_done_error_of_bad files fname status hmem hbad2
  refine ⟨⟨m, hm⟩, ⟨m, ?_⟩⟩
  simp [run_checks, hm]

/-- C10 witness: a single layer whose status file holds downloaded makes
the whole check run raise. -/
theorem C10_lifecycle_status_fails_checks_witness :
    (∃ m, already_done [("a_1.geojsonl.status", "downloaded")] = Except.error m) ∧
    (∃ m, run_checks [("a_1.geojsonl.status", "downloaded")] [] (fun _ => some []) [] =
      Except.error m) :=
  C10_lifecycle_status_fails_checks [] (fun _ => some []) []
    [("a_1.geojsonl.status", "downloaded")] "a_1.geojsonl.status" "downloaded"
    (by decide) (by decide)

end Esriscraper
